import Mathlib

/-!
# Verification of the dishwasher controller (`src/main.cpp`)

Shallow embedding of the Arduino control firmware.  The embedding makes the
implicit machine state explicit:

* time is a natural number of milliseconds (`millis()`); `delay n` advances it.
  Within a single program phase `millis() - start` never wraps the 32-bit
  counter, so plain `Nat` subtraction models the unsigned arithmetic.
* every `digitalWrite` and every `tone` is recorded in an event trace
  (newest event first, so recording is `List.cons`).
* the two sensor lines are functions of time supplied by an `Env`:
  `waterDisabled t` is `digitalRead(WATER_DISABLED_PIN)` at time `t`
  (high = no water), `temp t` is `analogRead(TEMP_SENSOR)` at time `t`.
* `crash(issue)` never returns; it is modelled as an `Except.error` carrying
  the issue code and the machine state at the moment of the call (the
  subsequent `reset(500)` and the endless beep loop are unobservable here).
* the unbounded polling loops take a fuel argument and return `none` when the
  fuel runs out; all theorems either hold for every fuel or assume enough.
* `loadTime / 1.5` and `loadTime * 1.5` are computed in `double` in the C++
  source; both operands are integers far below 2^52, where comparing an
  integer against the rounded quotient agrees with the exact rational
  comparison, so the loop guards are modelled exactly:
  `elapsed < loadTime / 1.5` as `3 * elapsed < 2 * loadTime` and
  `elapsed < loadTime * 1.5` as `2 * elapsed < 3 * loadTime`.
-/

/-- The output pins driven by the controller (`#define` pin names). -/
inductive Pin where
  | waterLoad   -- WATER_LOAD_PIN (intake valve relay)
  | mainPump    -- MAIN_PUMP_PIN
  | drainPump   -- DRAIN_PIN
  | soap        -- SOAP_PIN
  | heater      -- HEATER_PIN
  | led         -- LED_PIN (status indicator)
deriving DecidableEq, Repr

/-- Observable hardware effects: a `digitalWrite` of a level (true = HIGH)
at a time, or a `tone` started at a time. -/
inductive Event where
  | write : Pin → Bool → Nat → Event
  | toneAt : Nat → Event
deriving DecidableEq, Repr

/-- Machine state: current `millis()` and the trace of effects, newest first. -/
structure St where
  time : Nat
  trace : List Event
deriving DecidableEq, Repr

/-- The environment: what the input pins read as a function of time.
`waterDisabled t` is high exactly when there is no water (see `isLoaded`);
`temp t` is the raw analog reading of the thermistor. -/
structure Env where
  waterDisabled : Nat → Bool
  temp : Nat → Int

/-- A `crash(issue)`: the error code and the machine state when it was raised. -/
structure Fault where
  code : Nat
  st : St
deriving DecidableEq, Repr

-- Error codes
def GENERIC_ISSUE : Nat := 1
def DRAIN_ISSUE : Nat := 2
def FAILED_LOAD_ISSUE : Nat := 3
def FAILED_TOP_UP_ISSUE : Nat := 4
def FAILED_REACH_TEMP : Nat := 5

-- Message codes
def WELCOME_MSG : Nat := 2
def LOAD_MSG : Nat := 3
def DRAIN_MSG : Nat := 4

-- Times
def DRAIN_TIME : Nat := 22000
def LOAD_TIMEOUT : Nat := 200000
def HEATER_TIMEOUT : Nat := 600000

-- Modes (true = electrical HIGH).  The relay module is active low.
def RELAY_MODULE_OFF : Bool := true
def RELAY_MODULE_ON : Bool := false
def LED_OFF : Bool := true
def LED_ON : Bool := false

/-- `delay(ms)`: advance the clock. -/
def delay (ms : Nat) (s : St) : St :=
  { s with time := s.time + ms }

/-- `digitalWrite(pin, level)`: record the write; takes no time. -/
def digitalWrite (p : Pin) (level : Bool) (s : St) : St :=
  { s with trace := Event.write p level s.time :: s.trace }

/-- `tone(SPEAKER_PIN, 1000, length)`: starts a tone, non-blocking. -/
def toneStart (s : St) : St :=
  { s with trace := Event.toneAt s.time :: s.trace }

/-- `beep(many, length = 150, delayLength = 50)`: `many` beeps, each a tone
followed by `delay(length + delayLength)`. -/
def beep (many length delayLength : Nat) (s : St) : St :=
  match many with
  | 0 => s
  | n + 1 => beep n length delayLength (delay (length + delayLength) (toneStart s))

/-- `beepError(issue)`: 10 short beeps, a pause, then `issue` long beeps. -/
def beepError (issue : Nat) (s : St) : St :=
  beep issue 500 300 (delay 100 (beep 10 50 50 s))

/-- `beepMessage(message)`: 2 long beeps then `message` standard beeps. -/
def beepMessage (message : Nat) (s : St) : St :=
  beep message 150 50 (beep 2 350 220 s)

/-- `reset(stabiliseTime = 0)`: switch everything off in a fixed order —
heater first, then intake valve, drain pump, soap dispenser, indicator, and
the main pump last — with `delay(stabiliseTime)` after every step. -/
def reset (stabiliseTime : Nat) (s : St) : St :=
  let s := delay stabiliseTime (digitalWrite Pin.heater false s)
  let s := delay stabiliseTime (digitalWrite Pin.waterLoad RELAY_MODULE_OFF s)
  let s := delay stabiliseTime (digitalWrite Pin.drainPump RELAY_MODULE_OFF s)
  let s := delay stabiliseTime (digitalWrite Pin.soap RELAY_MODULE_OFF s)
  let s := delay stabiliseTime (digitalWrite Pin.led LED_OFF s)
  delay stabiliseTime (digitalWrite Pin.mainPump RELAY_MODULE_OFF s)

/-- `crash(issue)`: halt forever reporting `issue`.  Modelled as an error
carrying the state at the call; the `reset(500)` / beep loop that follows in
the source never returns and is not observable through the result. -/
def crash (issue : Nat) (s : St) : Except Fault α :=
  Except.error { code := issue, st := s }

/-- `isLoaded`'s sampling loop: up to `n` 1ms-spaced reads of
`WATER_DISABLED_PIN`; aborts with `false` at the first high (= dry) read. -/
def isLoadedAux (env : Env) : Nat → St → Bool × St
  | 0, s => (true, s)
  | n + 1, s =>
    if env.waterDisabled s.time then (false, s)
    else isLoadedAux env n (delay 1 s)

/-- `isLoaded()`: debounced level read — 10 samples at 1ms intervals, false
as soon as one sample is dry, true only if all 10 are wet. -/
def isLoaded (env : Env) (s : St) : Bool × St :=
  isLoadedAux env 10 s

/-- Everything `drain()` does before its final level check:
`reset(1000)`, drain pump on, drain message, `delay(DRAIN_TIME)`,
drain pump off. -/
def drainPour (s : St) : St :=
  let s := reset 1000 s
  let s := digitalWrite Pin.drainPump RELAY_MODULE_ON s
  let s := beepMessage DRAIN_MSG s
  let s := delay DRAIN_TIME s
  digitalWrite Pin.drainPump RELAY_MODULE_OFF s

/-- `drain()`: timed drain, then crash with `DRAIN_ISSUE` if the debounced
level check still reports water. -/
def drain (env : Env) (s : St) : Except Fault St :=
  match isLoaded env (drainPour s) with
  | (true, s) => crash DRAIN_ISSUE s
  | (false, s) => Except.ok s

/-- The base-level polling loop of `load()`:
`while (!isLoaded() && millis() - loadStarts < LOAD_TIMEOUT) delay(10);`. -/
def fillPoll (env : Env) (loadStarts : Nat) : Nat → St → Option St
  | 0, _ => none
  | fuel + 1, s =>
    match isLoaded env s with
    | (true, s) => some s
    | (false, s) =>
      if s.time - loadStarts < LOAD_TIMEOUT then
        fillPoll env loadStarts fuel (delay 10 s)
      else some s

/-- The doubling wait of `load()`:
`while (millis() - loadStarts < loadTime) { beep(1, 80); delay(1000); }`. -/
def doubleWait (loadTime loadStarts : Nat) : Nat → St → Option St
  | 0, _ => none
  | fuel + 1, s =>
    if s.time - loadStarts < loadTime then
      doubleWait loadTime loadStarts fuel (delay 1000 (beep 1 80 50 s))
    else some s

/-- The agitation-start wait of `load()` (main pump already on, the level
line deliberately not polled):
`while (millis() - loadStarts < loadTime / 1.5) { beep(2, 50); delay(800); }`,
the guard modelled exactly as `3 * elapsed < 2 * loadTime`. -/
def agitateWait (loadTime loadStarts : Nat) : Nat → St → Option St
  | 0, _ => none
  | fuel + 1, s =>
    if 3 * (s.time - loadStarts) < 2 * loadTime then
      agitateWait loadTime loadStarts fuel (delay 800 (beep 2 50 50 s))
    else some s

/-- The bounded top-up polling loop of `load()`:
`while (!isLoaded() && millis() - loadStarts < loadTime * 1.5) { beep(1, 50); delay(400); }`,
the guard modelled exactly as `2 * elapsed < 3 * loadTime`. -/
def topUpPoll (env : Env) (loadTime loadStarts : Nat) : Nat → St → Option St
  | 0, _ => none
  | fuel + 1, s =>
    match isLoaded env s with
    | (true, s) => some s
    | (false, s) =>
      if 2 * (s.time - loadStarts) < 3 * loadTime then
        topUpPoll env loadTime loadStarts fuel (delay 400 (beep 1 50 50 s))
      else some s

/-- What `load()` does before energising the valve: `reset(200)` and the
load-start message. -/
def loadSetup (s : St) : St :=
  beepMessage LOAD_MSG (reset 200 s)

/-- The tail of `load()` after the top-up loop: one final `isLoaded()`
reading — crash with `FAILED_TOP_UP_ISSUE` if dry — then valve off and a
1000ms stabilise delay. -/
def loadFinish (env : Env) (s : St) : Except Fault St :=
  match isLoaded env s with
  | (false, s) => crash FAILED_TOP_UP_ISSUE s
  | (true, s) => Except.ok (delay 1000 (digitalWrite Pin.waterLoad RELAY_MODULE_OFF s))

/-- Ghost record exposing the timing `load()` measures and derives:
the measured `loadTime` and the absolute times at which the base fill, the
doubling wait, the agitation wait and the top-up polling finished. -/
structure LoadGhost where
  loadTime : Nat
  tFill : Nat
  tDouble : Nat
  tAgitate : Nat
  tTopUp : Nat
deriving DecidableEq, Repr

/-- `load()`: valve on, poll to base level (timeout `LOAD_TIMEOUT`, crash
`FAILED_LOAD_ISSUE` on a dry read at/after the timeout), measure `loadTime`,
wait `loadTime` again, main pump on, wait `loadTime / 1.5` unpolled, poll
again bounded by `loadTime * 1.5`, final check (crash `FAILED_TOP_UP_ISSUE`
if dry), valve off.  Alongside the final state it returns the ghost timing
data. -/
def load (env : Env) (fuel : Nat) (s : St) : Option (Except Fault (St × LoadGhost)) :=
  let s := loadSetup s
  let loadStarts := s.time
  let s := digitalWrite Pin.waterLoad RELAY_MODULE_ON s
  match fillPoll env loadStarts fuel s with
  | none => none
  | some s =>
    -- if (!isLoaded() && millis() - loadStarts >= LOAD_TIMEOUT) crash(...)
    match isLoaded env s with
    | (b, s) =>
      if !b && decide (LOAD_TIMEOUT ≤ s.time - loadStarts) then
        some (crash FAILED_LOAD_ISSUE s)
      else
        let loadTime := s.time - loadStarts
        let tFill := s.time
        match doubleWait loadTime s.time fuel s with
        | none => none
        | some s =>
          let tDouble := s.time
          let s := digitalWrite Pin.mainPump RELAY_MODULE_ON s
          match agitateWait loadTime s.time fuel s with
          | none => none
          | some s =>
            let tAgitate := s.time
            match topUpPoll env loadTime s.time fuel s with
            | none => none
            | some s =>
              let tTopUp := s.time
              match loadFinish env s with
              | Except.error f => some (Except.error f)
              | Except.ok s =>
                some (Except.ok (s, ⟨loadTime, tFill, tDouble, tAgitate, tTopUp⟩))

/-- The mutable state of the wash timer loop in `cycle()`: the cached
temperature reading `Vo`, the wash-timer baseline `washStarts`, and the
machine state. -/
structure WashSt where
  vo : Int
  washStarts : Nat
  st : St
deriving DecidableEq, Repr

/-- The heartbeat at the end of every wash loop iteration:
`delay(1000); led on; delay(1000); led off;`. -/
def ledPulse (s : St) : St :=
  digitalWrite Pin.led LED_OFF (delay 1000 (digitalWrite Pin.led LED_ON (delay 1000 s)))

/-- One iteration body of the wash timer loop of `cycle()`:
if the cached reading `Vo` is strictly above the target, switch the heater
off; otherwise re-sample, crash with `FAILED_REACH_TEMP` when still below
target past `HEATER_TIMEOUT` since cycle start, else reset the wash-timer
baseline and beep; then the led heartbeat. -/
def washStep (env : Env) (temperature : Int) (cycleStarts : Nat) (w : WashSt) :
    Except Fault WashSt :=
  if w.vo > temperature then
    Except.ok ⟨w.vo, w.washStarts, ledPulse (digitalWrite Pin.heater false w.st)⟩
  else
    let vo := env.temp w.st.time
    if vo < temperature ∧ w.st.time - cycleStarts > HEATER_TIMEOUT then
      crash FAILED_REACH_TEMP w.st
    else
      Except.ok ⟨vo, w.st.time, ledPulse (beep 1 150 50 w.st)⟩

/-- The wash timer loop of `cycle()`:
`while (washTime * 60 * 1000 > millis() - washStarts) { ... }`. -/
def washLoop (env : Env) (washTime : Nat) (temperature : Int) (cycleStarts : Nat) :
    Nat → WashSt → Option (Except Fault St)
  | 0, _ => none
  | fuel + 1, w =>
    if washTime * 60 * 1000 > w.st.time - w.washStarts then
      match washStep env temperature cycleStarts w with
      | Except.error f => some (Except.error f)
      | Except.ok w' => washLoop env washTime temperature cycleStarts fuel w'
    else some (Except.ok w.st)

/-- `cycle(washTime, soap = false, temperature = 0)`: load, optional soap
pulse, one temperature check that may energise the heater, the wash timer
loop, then drain. -/
def cycle (env : Env) (washTime : Nat) (soap : Bool) (temperature : Int)
    (fuel : Nat) (s : St) : Option (Except Fault St) :=
  match load env fuel s with
  | none => none
  | some (Except.error f) => some (Except.error f)
  | some (Except.ok (s, _)) =>
    let s := if soap then
        delay 1000 (digitalWrite Pin.soap RELAY_MODULE_OFF
          (delay 200 (digitalWrite Pin.soap RELAY_MODULE_ON s)))
      else s
    -- Enable heater at start of the cycle if temp below required.
    -- We don't turn it ON again when temperature goes down.
    let vo := env.temp s.time
    let s := if temperature > 0 ∧ vo < temperature then
        delay 1000 (digitalWrite Pin.heater true s)
      else s
    let cycleStarts := s.time
    let washStarts := s.time
    match washLoop env washTime temperature cycleStarts fuel ⟨vo, washStarts, s⟩ with
    | none => none
    | some (Except.error f) => some (Except.error f)
    | some (Except.ok s) => some (drain env s)

/-- The error code of a fuelled run, if the run completed with a crash. -/
def errCode? : Option (Except Fault α) → Option Nat
  | some (Except.error f) => some f.code
  | _ => none

/-- The error code and crash time of a fuelled run that crashed. -/
def errAt? : Option (Except Fault α) → Option (Nat × Nat)
  | some (Except.error f) => some (f.code, f.st.time)
  | _ => none

/-- The ghost timing data of a completed, successful `load()`. -/
def okGhost? : Option (Except Fault (St × LoadGhost)) → Option LoadGhost
  | some (Except.ok (_, g)) => some g
  | _ => none

/-- The machine state a finished run ended in (crash state for errors). -/
def stOf : Except Fault St → St
  | Except.ok s => s
  | Except.error f => f.st

/-- Number of heater-energise writes (`digitalWrite(HEATER_PIN, HIGH)`) in a
trace. -/
def heaterOnCount (tr : List Event) : Nat :=
  tr.countP fun e => match e with
    | Event.write Pin.heater true _ => true
    | _ => false

/-- The tones a `beep(n, length, delayLength)` call starting at time `t0`
adds to the trace (newest first). -/
def beepTones : Nat → Nat → Nat → Nat → List Event
  | 0, _, _, _ => []
  | n + 1, length, delayLength, t0 =>
    beepTones n length delayLength (t0 + (length + delayLength)) ++ [Event.toneAt t0]

/-! ## Projection lemmas

The nested record updates of the primitives blow up exponentially when
unfolded wholesale; all reasoning about composed runs therefore goes through
these `.time` / `.trace` projection lemmas. -/

@[simp] theorem delay_time (ms : Nat) (s : St) : (delay ms s).time = s.time + ms := rfl

@[simp] theorem delay_trace (ms : Nat) (s : St) : (delay ms s).trace = s.trace := rfl

@[simp] theorem digitalWrite_time (p : Pin) (l : Bool) (s : St) :
    (digitalWrite p l s).time = s.time := rfl

@[simp] theorem digitalWrite_trace (p : Pin) (l : Bool) (s : St) :
    (digitalWrite p l s).trace = Event.write p l s.time :: s.trace := rfl

@[simp] theorem toneStart_time (s : St) : (toneStart s).time = s.time := rfl

@[simp] theorem toneStart_trace (s : St) :
    (toneStart s).trace = Event.toneAt s.time :: s.trace := rfl

theorem beep_zero (length delayLength : Nat) (s : St) : beep 0 length delayLength s = s := rfl

theorem beep_succ (n length delayLength : Nat) (s : St) :
    beep (n + 1) length delayLength s =
      beep n length delayLength (delay (length + delayLength) (toneStart s)) := rfl

@[simp] theorem beep_time (n length delayLength : Nat) (s : St) :
    (beep n length delayLength s).time = s.time + n * (length + delayLength) := by
  induction n generalizing s with
  | zero => simp [beep_zero]
  | succ n ih => rw [beep_succ, ih]; simp; ring

@[simp] theorem beep_trace (n length delayLength : Nat) (s : St) :
    (beep n length delayLength s).trace =
      beepTones n length delayLength s.time ++ s.trace := by
  induction n generalizing s with
  | zero => simp [beep_zero, beepTones]
  | succ n ih => rw [beep_succ, ih]; simp [beepTones]

theorem beepTones_two (length delayLength t : Nat) :
    beepTones 2 length delayLength t =
      [Event.toneAt (t + (length + delayLength)), Event.toneAt t] := rfl

theorem beepTones_three (length delayLength t : Nat) :
    beepTones 3 length delayLength t =
      [Event.toneAt (t + (length + delayLength) + (length + delayLength)),
       Event.toneAt (t + (length + delayLength)), Event.toneAt t] := rfl

theorem beepTones_four (length delayLength t : Nat) :
    beepTones 4 length delayLength t =
      [Event.toneAt (t + (length + delayLength) + (length + delayLength) + (length + delayLength)),
       Event.toneAt (t + (length + delayLength) + (length + delayLength)),
       Event.toneAt (t + (length + delayLength)), Event.toneAt t] := rfl

@[simp] theorem reset_time (stabiliseTime : Nat) (s : St) :
    (reset stabiliseTime s).time = s.time + 6 * stabiliseTime := by
  simp [reset]; try ring

@[simp] theorem reset_trace (stabiliseTime : Nat) (s : St) :
    (reset stabiliseTime s).trace =
      Event.write Pin.mainPump RELAY_MODULE_OFF (s.time + 5 * stabiliseTime) ::
      Event.write Pin.led LED_OFF (s.time + 4 * stabiliseTime) ::
      Event.write Pin.soap RELAY_MODULE_OFF (s.time + 3 * stabiliseTime) ::
      Event.write Pin.drainPump RELAY_MODULE_OFF (s.time + 2 * stabiliseTime) ::
      Event.write Pin.waterLoad RELAY_MODULE_OFF (s.time + 1 * stabiliseTime) ::
      Event.write Pin.heater false s.time ::
      s.trace := by
  simp [reset, List.cons.injEq, Event.write.injEq]
  try omega

@[simp] theorem ledPulse_time (s : St) : (ledPulse s).time = s.time + 2000 := by
  simp [ledPulse]; try omega

@[simp] theorem ledPulse_trace (s : St) :
    (ledPulse s).trace =
      Event.write Pin.led LED_OFF (s.time + 2000) ::
      Event.write Pin.led LED_ON (s.time + 1000) :: s.trace := by
  simp [ledPulse]; try omega

@[simp] theorem loadSetup_time (s : St) : (loadSetup s).time = s.time + 2940 := by
  simp [loadSetup, beepMessage, LOAD_MSG]; try omega

/-! ## Basic lemmas about the sampling primitive -/

theorem isLoadedAux_trace (env : Env) :
    ∀ (n : Nat) (s : St), (isLoadedAux env n s).2.trace = s.trace := by
  intro n
  induction n with
  | zero => intro s; simp [isLoadedAux]
  | succ n ih =>
    intro s
    by_cases h : env.waterDisabled s.time <;> simp [isLoadedAux, h, ih, delay]

theorem isLoadedAux_time_ge (env : Env) :
    ∀ (n : Nat) (s : St), s.time ≤ (isLoadedAux env n s).2.time := by
  intro n
  induction n with
  | zero => intro s; simp [isLoadedAux]
  | succ n ih =>
    intro s
    by_cases h : env.waterDisabled s.time
    · simp [isLoadedAux, h]
    · simp only [isLoadedAux, h, if_false, Bool.false_eq_true]
      exact le_trans (by simp [delay]) (ih (delay 1 s))

theorem isLoadedAux_time_le (env : Env) :
    ∀ (n : Nat) (s : St), (isLoadedAux env n s).2.time ≤ s.time + n := by
  intro n
  induction n with
  | zero => intro s; simp [isLoadedAux]
  | succ n ih =>
    intro s
    by_cases h : env.waterDisabled s.time
    · simp [isLoadedAux, h]
    · simp only [isLoadedAux, h, if_false, Bool.false_eq_true]
      calc (isLoadedAux env n (delay 1 s)).2.time ≤ (delay 1 s).time + n := ih _
        _ ≤ s.time + (n + 1) := by simp [delay]; omega

theorem isLoadedAux_fst_iff (env : Env) :
    ∀ (n : Nat) (s : St),
      (isLoadedAux env n s).1 = true ↔
        ∀ i, i < n → env.waterDisabled (s.time + i) = false := by
  intro n
  induction n with
  | zero => intro s; simp [isLoadedAux]
  | succ n ih =>
    intro s
    by_cases h : env.waterDisabled s.time
    · simp only [isLoadedAux, h, if_true]
      constructor
      · intro hF; cases hF
      · intro hall
        have := hall 0 (Nat.succ_pos n)
        simp [h] at this
    · simp only [isLoadedAux, h, if_false, Bool.false_eq_true]
      rw [ih (delay 1 s)]
      constructor
      · intro hall i hi
        match i with
        | 0 => simpa using h
        | j + 1 =>
          have := hall j (by omega)
          simpa [delay, Nat.add_assoc, Nat.add_comm 1 j] using this
      · intro hall i hi
        have := hall (i + 1) (by omega)
        simpa [delay, Nat.add_assoc, Nat.add_comm 1 i] using this

theorem isLoaded_trace (env : Env) (s : St) : (isLoaded env s).2.trace = s.trace :=
  isLoadedAux_trace env 10 s

theorem isLoaded_time_ge (env : Env) (s : St) : s.time ≤ (isLoaded env s).2.time :=
  isLoadedAux_time_ge env 10 s

theorem isLoaded_time_le (env : Env) (s : St) : (isLoaded env s).2.time ≤ s.time + 10 :=
  isLoadedAux_time_le env 10 s

/-- If every sample of the window is wet, `isLoaded` returns true and takes
exactly the full 10ms window. -/
theorem isLoaded_of_wet (env : Env) (s : St)
    (h : ∀ i, i < 10 → env.waterDisabled (s.time + i) = false) :
    isLoaded env s = (true, { s with time := s.time + 10 }) := by
  have : ∀ (n : Nat) (s' : St),
      (∀ i, i < n → env.waterDisabled (s'.time + i) = false) →
      isLoadedAux env n s' = (true, { s' with time := s'.time + n }) := by
    intro n
    induction n with
    | zero => intro s' _; simp [isLoadedAux]
    | succ n ih =>
      intro s' h'
      have h0 : env.waterDisabled s'.time = false := by simpa using h' 0 (Nat.succ_pos n)
      rw [isLoadedAux, if_neg (by simp [h0])]
      rw [ih (delay 1 s') (fun i hi => by
        simpa [delay, Nat.add_assoc, Nat.add_comm 1 i] using h' (i + 1) (by omega))]
      simp [delay]
      omega
  exact this 10 s h

/-- If the first sample is dry, `isLoaded` returns false immediately. -/
theorem isLoaded_of_dry_now (env : Env) (s : St)
    (h : env.waterDisabled s.time = true) :
    isLoaded env s = (false, s) := by
  rw [isLoaded, isLoadedAux, if_pos h]

/-! ## C1 -/

/-- C1: the debounced level read `isFilled` (implemented as `isLoaded`)
samples the level line 10 times at 1ms intervals; it returns true exactly
when all 10 samples (taken at times `s.time + i`, `i < 10`) read wet, so a
single dry sample anywhere in the window forces the result to false. -/
theorem isLoaded_true_iff_all_samples_wet (env : Env) (s : St) :
    ((isLoaded env s).1 = true ↔
      ∀ i, i < 10 → env.waterDisabled (s.time + i) = false) ∧
    (∀ i, i < 10 → env.waterDisabled (s.time + i) = true →
      (isLoaded env s).1 = false) := by
  refine ⟨isLoadedAux_fst_iff env 10 s, ?_⟩
  intro i hi hdry
  cases hb : (isLoaded env s).1 with
  | false => rfl
  | true =>
    have := (isLoadedAux_fst_iff env 10 s).1 hb i hi
    rw [this] at hdry
    cases hdry

/-! ## C9 -/

/-- C9: `reset(stabiliseMillis)` switches the actuators off in the strict
order heater, intake valve, drain pump, soap dispenser, status indicator,
main pump — heater first, main pump last — inserting a `stabiliseMillis`
delay after each step (so the writes land at `s.time + k * stabiliseMillis`,
`k = 0..5`, and the call ends at `s.time + 6 * stabiliseMillis`). -/
theorem reset_order_and_settle (stabiliseTime : Nat) (s : St) :
    reset stabiliseTime s =
      { time := s.time + 6 * stabiliseTime,
        trace :=
          Event.write Pin.mainPump RELAY_MODULE_OFF (s.time + 5 * stabiliseTime) ::
          Event.write Pin.led LED_OFF (s.time + 4 * stabiliseTime) ::
          Event.write Pin.soap RELAY_MODULE_OFF (s.time + 3 * stabiliseTime) ::
          Event.write Pin.drainPump RELAY_MODULE_OFF (s.time + 2 * stabiliseTime) ::
          Event.write Pin.waterLoad RELAY_MODULE_OFF (s.time + 1 * stabiliseTime) ::
          Event.write Pin.heater false s.time ::
          s.trace } := by
  simp only [reset, delay, digitalWrite, St.mk.injEq, List.cons.injEq, Event.write.injEq,
    and_true, true_and, eq_self_iff_true]
  omega

/-! ## Constant value lemmas (kept out of simp sets so that simp never
closes mixed symbolic/literal arithmetic itself; `omega` does, cheaply). -/

theorem DRAIN_TIME_eq : DRAIN_TIME = 22000 := rfl

theorem LOAD_TIMEOUT_eq : LOAD_TIMEOUT = 200000 := rfl

theorem HEATER_TIMEOUT_eq : HEATER_TIMEOUT = 600000 := rfl

theorem DRAIN_MSG_eq : DRAIN_MSG = 4 := rfl

theorem LOAD_MSG_eq : LOAD_MSG = 3 := rfl

/-! ## C7 -/

theorem drainPour_time (s : St) : (drainPour s).time = s.time + 29940 := by
  simp only [drainPour, digitalWrite_time, delay_time, beepMessage, beep_time, reset_time]
  have ht : DRAIN_TIME = 22000 := rfl
  have hm : DRAIN_MSG = 4 := rfl
  omega

theorem drainPour_trace (s : St) :
    (drainPour s).trace =
      Event.write Pin.drainPump RELAY_MODULE_OFF (s.time + 29940) ::
      Event.toneAt (s.time + 7740) :: Event.toneAt (s.time + 7540) ::
      Event.toneAt (s.time + 7340) :: Event.toneAt (s.time + 7140) ::
      Event.toneAt (s.time + 6570) :: Event.toneAt (s.time + 6000) ::
      Event.write Pin.drainPump RELAY_MODULE_ON (s.time + 6000) ::
      Event.write Pin.mainPump RELAY_MODULE_OFF (s.time + 5000) ::
      Event.write Pin.led LED_OFF (s.time + 4000) ::
      Event.write Pin.soap RELAY_MODULE_OFF (s.time + 3000) ::
      Event.write Pin.drainPump RELAY_MODULE_OFF (s.time + 2000) ::
      Event.write Pin.waterLoad RELAY_MODULE_OFF (s.time + 1000) ::
      Event.write Pin.heater false s.time :: s.trace := by
  simp only [drainPour, beepMessage, DRAIN_MSG_eq, digitalWrite_trace, digitalWrite_time,
    delay_trace, delay_time, beep_trace, beep_time, reset_trace, reset_time,
    beepTones_four, beepTones_two, List.cons_append, List.nil_append, List.append_assoc,
    List.cons.injEq, Event.write.injEq, Event.toneAt.injEq, eq_self_iff_true, true_and,
    and_true]
  have ht : DRAIN_TIME = 22000 := rfl
  omega

theorem drain_eq (env : Env) (s : St) :
    drain env s =
      (if (isLoaded env (drainPour s)).1 then
        Except.error ⟨DRAIN_ISSUE, (isLoaded env (drainPour s)).2⟩
      else Except.ok (isLoaded env (drainPour s)).2) := by
  rw [drain]
  rcases h : isLoaded env (drainPour s) with ⟨b, s2⟩
  cases b <;> rfl

/-- C7: `drain()` resets with 1000ms settling, energises the drain pump (at
`s.time + 6000`, right after the six reset steps), announces the drain
message (ending at `s.time + 7940`), waits exactly `DRAIN_TIME = 22000` ms,
de-energises the pump at `s.time + 29940`, and then crashes with
`DRAIN_ISSUE` exactly when the debounced `isLoaded` re-check still reports
water; otherwise it returns normally with no retry. -/
theorem drain_spec (env : Env) (s : St) :
    (drainPour s).time = s.time + 6000 + 1940 + 22000 ∧
    (drainPour s).trace =
      Event.write Pin.drainPump RELAY_MODULE_OFF (s.time + 29940) ::
      Event.toneAt (s.time + 7740) :: Event.toneAt (s.time + 7540) ::
      Event.toneAt (s.time + 7340) :: Event.toneAt (s.time + 7140) ::
      Event.toneAt (s.time + 6570) :: Event.toneAt (s.time + 6000) ::
      Event.write Pin.drainPump RELAY_MODULE_ON (s.time + 6000) ::
      Event.write Pin.mainPump RELAY_MODULE_OFF (s.time + 5000) ::
      Event.write Pin.led LED_OFF (s.time + 4000) ::
      Event.write Pin.soap RELAY_MODULE_OFF (s.time + 3000) ::
      Event.write Pin.drainPump RELAY_MODULE_OFF (s.time + 2000) ::
      Event.write Pin.waterLoad RELAY_MODULE_OFF (s.time + 1000) ::
      Event.write Pin.heater false s.time :: s.trace ∧
    drain env s =
      (if (isLoaded env (drainPour s)).1 then
        Except.error ⟨DRAIN_ISSUE, (isLoaded env (drainPour s)).2⟩
      else Except.ok (isLoaded env (drainPour s)).2) ∧
    (errCode? (some (drain env s)) = some DRAIN_ISSUE ↔
      (isLoaded env (drainPour s)).1 = true) := by
  refine ⟨by have := drainPour_time s; omega, drainPour_trace s, drain_eq env s, ?_⟩
  rw [drain_eq env s]
  rcases h : isLoaded env (drainPour s) with ⟨b, s2⟩
  cases b <;> simp [errCode?]

/-! ## C6 -/

/-- C6 (amended): in an iteration of the wash timer loop, when the cached
temperature reading `Vo` is *strictly above* the target, the heater is
de-energised (`digitalWrite(HEATER_PIN, LOW)`) and the wash timer advances
normally: the baseline `washStarts` is not reset and the cached reading is
kept.  (The source guard is `Vo > temperature`; at `Vo == temperature` the
code takes the other branch — see the counterexample.) -/
theorem washStep_above_target_advances (env : Env) (temperature : Int)
    (cycleStarts : Nat) (w : WashSt) (h : w.vo > temperature) :
    washStep env temperature cycleStarts w =
      Except.ok ⟨w.vo, w.washStarts, ledPulse (digitalWrite Pin.heater false w.st)⟩ := by
  rw [washStep, if_pos h]

theorem washStep_above_target_advances_witness :
    ((951 : Int) > 950) ∧
    washStep ⟨fun _ => false, fun _ => 951⟩ 950 0 ⟨951, 5, ⟨100, []⟩⟩ =
      Except.ok ⟨951, 5, ledPulse (digitalWrite Pin.heater false ⟨100, []⟩)⟩ :=
  ⟨by decide, washStep_above_target_advances ⟨fun _ => false, fun _ => 951⟩ 950 0
    ⟨951, 5, ⟨100, []⟩⟩ (by decide)⟩

/-- C6 counterexample: with the cached reading exactly *at* the target
(950, "at or above target"), the loop body does not de-energise the heater
and it *does* reset the wash-timer baseline (washStarts 5 ↦ 100): the
iteration takes the re-sample branch, so the claim's "at or above" is wrong
for equality; only a strictly-above reading advances the timer. -/
theorem washStep_at_target_resets_baseline :
    ((⟨950, 5, ⟨100, []⟩⟩ : WashSt).vo ≥ (950 : Int)) ∧
    washStep ⟨fun _ => false, fun _ => 950⟩ 950 0 ⟨950, 5, ⟨100, []⟩⟩ =
      Except.ok ⟨950, 100, ⟨2300,
        [Event.write Pin.led true 2300, Event.write Pin.led false 1300,
         Event.toneAt 100]⟩⟩ ∧
    ((100 : Nat) ≠ 5) ∧
    (([Event.write Pin.led true 2300, Event.write Pin.led false 1300,
        Event.toneAt 100].all fun e => match e with
          | Event.write Pin.heater _ _ => false
          | _ => true) = true) :=
  ⟨by decide, rfl, by decide, rfl⟩

/-! ## C4 -/

/-- If the final reading of `load()` is dry, the run crashes with
`FAILED_TOP_UP_ISSUE` at the state the reading left behind. -/
theorem loadFinish_dry (env : Env) (s : St) (h : (isLoaded env s).1 = false) :
    loadFinish env s = Except.error ⟨FAILED_TOP_UP_ISSUE, (isLoaded env s).2⟩ := by
  rw [loadFinish]
  rcases hl : isLoaded env s with ⟨b, s2⟩
  rw [hl] at h
  cases b
  · rfl
  · cases h

/-- Any crash of `loadFinish` carries `FAILED_TOP_UP_ISSUE`. -/
theorem loadFinish_code (env : Env) (s : St) (f : Fault)
    (h : loadFinish env s = Except.error f) : f.code = FAILED_TOP_UP_ISSUE := by
  rw [loadFinish] at h
  rcases hl : isLoaded env s with ⟨b, s2⟩
  rw [hl] at h
  cases b
  · cases h; rfl
  · cases h

/-- C4: after the bounded top-up wait, `load()` takes one final `isFilled`
reading; a dry reading crashes with `FAILED_TOP_UP_ISSUE` (code 4).  In
particular, a sensor that is wet up to the moment the main pump starts (at
absolute time 4090 in this run) and dry ever after makes `load()` raise
exactly `FAILED_TOP_UP_ISSUE`, at time 5590. -/
theorem load_top_up_failure (env : Env) (s : St)
    (h : (isLoaded env s).1 = false) :
    loadFinish env s = Except.error ⟨FAILED_TOP_UP_ISSUE, (isLoaded env s).2⟩ ∧
    errAt? (load ⟨fun t => decide (4090 ≤ t), fun _ => 0⟩ 12 ⟨0, []⟩) =
      some (FAILED_TOP_UP_ISSUE, 5590) :=
  ⟨loadFinish_dry env s h, by decide⟩

theorem load_top_up_failure_witness :
    ((isLoaded ⟨fun _ => true, fun _ => 0⟩ ⟨0, []⟩).1 = false) ∧
    (loadFinish ⟨fun _ => true, fun _ => 0⟩ ⟨0, []⟩ =
      Except.error ⟨FAILED_TOP_UP_ISSUE, (isLoaded ⟨fun _ => true, fun _ => 0⟩ ⟨0, []⟩).2⟩ ∧
    errAt? (load ⟨fun t => decide (4090 ≤ t), fun _ => 0⟩ 12 ⟨0, []⟩) =
      some (FAILED_TOP_UP_ISSUE, 5590)) :=
  ⟨by decide, load_top_up_failure ⟨fun _ => true, fun _ => 0⟩ ⟨0, []⟩ (by decide)⟩

/-! ## C3 -/

/-- C3: given that the initial polling loop of `load()` finished (in state
`s4`), the run crashes with `FAILED_LOAD_ISSUE` (code 3) exactly when the
final `isFilled` poll taken after the loop reads dry *and* the elapsed time
since the valve was energised — measured after that final poll — is at least
`LOAD_TIMEOUT`; a timeout whose final poll reads wet is not a failure and
the phase proceeds.  (The valve is energised at `(loadSetup s).time`, the
moment `loadStarts` is recorded.) -/
theorem load_timeout_crash_iff (env : Env) (fuel : Nat) (s s4 : St)
    (hp : fillPoll env (loadSetup s).time fuel
        (digitalWrite Pin.waterLoad RELAY_MODULE_ON (loadSetup s)) = some s4) :
    errCode? (load env fuel s) = some FAILED_LOAD_ISSUE ↔
      ((isLoaded env s4).1 = false ∧
        LOAD_TIMEOUT ≤ (isLoaded env s4).2.time - (loadSetup s).time) := by
  rw [load, hp]
  dsimp only
  rcases hl : isLoaded env s4 with ⟨b, s5⟩
  dsimp only
  split
  · rename_i hcond
    rw [Bool.and_eq_true, Bool.not_eq_true', decide_eq_true_eq] at hcond
    simp only [crash, errCode?, hcond.1, hcond.2, and_self, iff_true]
  · rename_i hcond
    rw [Bool.and_eq_true, Bool.not_eq_true', decide_eq_true_eq] at hcond
    constructor
    · intro h
      exfalso
      revert h
      split
      · simp [errCode?]
      · split
        · simp [errCode?]
        · split
          · simp [errCode?]
          · split
            · rename_i f heq
              have hc := loadFinish_code _ _ _ heq
              simp [errCode?, hc, FAILED_LOAD_ISSUE, FAILED_TOP_UP_ISSUE]
            · simp [errCode?]
    · intro h
      exact absurd ⟨h.1, h.2⟩ hcond

theorem load_timeout_crash_iff_witness :
    (fillPoll ⟨fun _ => false, fun _ => 0⟩ (loadSetup ⟨0, []⟩).time 12
        (digitalWrite Pin.waterLoad RELAY_MODULE_ON (loadSetup ⟨0, []⟩)) =
      some ⟨2950,
        [Event.write Pin.waterLoad false 2940, Event.toneAt 2740, Event.toneAt 2540,
         Event.toneAt 2340, Event.toneAt 1770, Event.toneAt 1200,
         Event.write Pin.mainPump true 1000, Event.write Pin.led true 800,
         Event.write Pin.soap true 600, Event.write Pin.drainPump true 400,
         Event.write Pin.waterLoad true 200, Event.write Pin.heater false 0]⟩) ∧
    (errCode? (load ⟨fun _ => false, fun _ => 0⟩ 12 ⟨0, []⟩) = some FAILED_LOAD_ISSUE ↔
      ((isLoaded ⟨fun _ => false, fun _ => 0⟩ ⟨2950,
        [Event.write Pin.waterLoad false 2940, Event.toneAt 2740, Event.toneAt 2540,
         Event.toneAt 2340, Event.toneAt 1770, Event.toneAt 1200,
         Event.write Pin.mainPump true 1000, Event.write Pin.led true 800,
         Event.write Pin.soap true 600, Event.write Pin.drainPump true 400,
         Event.write Pin.waterLoad true 200, Event.write Pin.heater false 0]⟩).1 = false ∧
        LOAD_TIMEOUT ≤ (isLoaded ⟨fun _ => false, fun _ => 0⟩ ⟨2950,
        [Event.write Pin.waterLoad false 2940, Event.toneAt 2740, Event.toneAt 2540,
         Event.toneAt 2340, Event.toneAt 1770, Event.toneAt 1200,
         Event.write Pin.mainPump true 1000, Event.write Pin.led true 800,
         Event.write Pin.soap true 600, Event.write Pin.drainPump true 400,
         Event.write Pin.waterLoad true 200, Event.write Pin.heater false 0]⟩).2.time -
          (loadSetup ⟨0, []⟩).time)) :=
  ⟨by decide, load_timeout_crash_iff ⟨fun _ => false, fun _ => 0⟩ 12 ⟨0, []⟩ _ (by decide)⟩

/-! ## Error-code inventory lemmas -/

theorem washStep_error (env : Env) (temperature : Int) (cycleStarts : Nat) (w : WashSt)
    (f : Fault) (h : washStep env temperature cycleStarts w = Except.error f) :
    f.code = FAILED_REACH_TEMP ∧ env.temp f.st.time < temperature ∧ f.st = w.st ∧
      HEATER_TIMEOUT < f.st.time - cycleStarts := by
  rw [washStep] at h
  split at h
  · cases h
  · dsimp only at h
    split at h
    · rename_i hcond
      rw [crash] at h
      injection h with h2
      subst h2
      exact ⟨rfl, hcond.1, rfl, hcond.2⟩
    · cases h

theorem washLoop_error (env : Env) (washTime : Nat) (temperature : Int) (cycleStarts : Nat) :
    ∀ (fuel : Nat) (w : WashSt) (f : Fault),
      washLoop env washTime temperature cycleStarts fuel w = some (Except.error f) →
      f.code = FAILED_REACH_TEMP ∧ env.temp f.st.time < temperature ∧
        HEATER_TIMEOUT < f.st.time - cycleStarts := by
  intro fuel
  induction fuel with
  | zero => intro w f h; cases h
  | succ n ih =>
    intro w f h
    rw [washLoop] at h
    split at h
    · split at h
      · rename_i f2 heq
        injection h with h2
        injection h2 with h3
        subst h3
        exact ⟨(washStep_error _ _ _ _ _ heq).1, (washStep_error _ _ _ _ _ heq).2.1,
          (washStep_error _ _ _ _ _ heq).2.2.2⟩
      · rename_i w2 heq
        exact ih w2 f h
    · injection h with h2; cases h2

theorem drain_error (env : Env) (s : St) (f : Fault)
    (h : drain env s = Except.error f) : f.code = DRAIN_ISSUE := by
  rw [drain_eq] at h
  split at h
  · injection h with h2; subst h2; rfl
  · cases h

theorem load_error (env : Env) (fuel : Nat) (s : St) (f : Fault)
    (h : load env fuel s = some (Except.error f)) :
    f.code = FAILED_LOAD_ISSUE ∨ f.code = FAILED_TOP_UP_ISSUE := by
  rw [load] at h
  split at h
  · cases h
  · dsimp only at h
    split at h
    · rw [crash] at h
      injection h with h2
      injection h2 with h3
      subst h3
      exact Or.inl rfl
    · split at h
      · cases h
      · split at h
        · cases h
        · split at h
          · cases h
          · split at h
            · rename_i f2 heq
              injection h with h2
              injection h2 with h3
              subst h3
              exact Or.inr (loadFinish_code _ _ _ heq)
            · cases h


/-! ## C10 -/

/-- C10: a cycle invoked with `targetTemperatureRaw = 0` (the rinse program
`cycle(5, false, 0)` and the final wash cycle `cycle(3, false, 0)`) can
never raise `FAILED_REACH_TEMP`, whatever the (non-negative, as produced by
`analogRead`) temperature readings are and however long it runs: the crash
guard needs a reading strictly below the target, and no reading is below 0. -/
theorem cycle_zero_target_never_reach_temp (env : Env) (washTime : Nat) (soap : Bool)
    (fuel : Nat) (s : St) (h0 : ∀ t, 0 ≤ env.temp t) :
    errCode? (cycle env washTime soap 0 fuel s) ≠ some FAILED_REACH_TEMP := by
  intro hc
  rw [cycle] at hc
  split at hc
  · simp [errCode?] at hc
  · rename_i f heq
    simp only [errCode?, Option.some.injEq] at hc
    rcases load_error _ _ _ _ heq with h3 | h4
    · rw [hc] at h3
      simp [FAILED_LOAD_ISSUE, FAILED_REACH_TEMP] at h3
    · rw [hc] at h4
      simp [FAILED_TOP_UP_ISSUE, FAILED_REACH_TEMP] at h4
  · rename_i sg heq
    dsimp only at hc
    split at hc
    · simp [errCode?] at hc
    · rename_i f heq2
      have hw := washLoop_error _ _ _ _ _ _ _ heq2
      exact absurd hw.2.1 (not_lt.mpr (h0 f.st.time))
    · rename_i s2 heq2
      cases hd : drain env s2 with
      | error f =>
        rw [hd] at hc
        simp only [errCode?, Option.some.injEq] at hc
        have h2 := drain_error _ _ _ hd
        rw [hc] at h2
        simp [DRAIN_ISSUE, FAILED_REACH_TEMP] at h2
      | ok s3 =>
        rw [hd] at hc
        simp [errCode?] at hc

theorem cycle_zero_target_never_reach_temp_witness :
    errCode? (cycle ⟨fun _ => false, fun _ => 1000⟩ 1 false 0 40 ⟨0, []⟩) ≠
      some FAILED_REACH_TEMP :=
  cycle_zero_target_never_reach_temp ⟨fun _ => false, fun _ => 1000⟩ 1 false 40 ⟨0, []⟩
    (fun _ => by norm_num)

/-! ## C8: heater-energise counting -/

@[simp] theorem heaterOnCount_nil : heaterOnCount [] = 0 := rfl

@[simp] theorem heaterOnCount_cons_tone (t : Nat) (tr : List Event) :
    heaterOnCount (Event.toneAt t :: tr) = heaterOnCount tr := by
  simp [heaterOnCount, List.countP_cons]

@[simp] theorem heaterOnCount_cons_write (p : Pin) (l : Bool) (t : Nat) (tr : List Event) :
    heaterOnCount (Event.write p l t :: tr) =
      heaterOnCount tr + (if p = Pin.heater ∧ l = true then 1 else 0) := by
  cases p <;> cases l <;> simp [heaterOnCount, List.countP_cons]

@[simp] theorem heaterOnCount_append (l1 l2 : List Event) :
    heaterOnCount (l1 ++ l2) = heaterOnCount l1 + heaterOnCount l2 := by
  simp [heaterOnCount, List.countP_append]

@[simp] theorem heaterOnCount_beepTones (n length delayLength t : Nat) :
    heaterOnCount (beepTones n length delayLength t) = 0 := by
  induction n generalizing t with
  | zero => simp [beepTones]
  | succ n ih => simp [beepTones, ih]

theorem hoc_reset (st : Nat) (s : St) :
    heaterOnCount (reset st s).trace = heaterOnCount s.trace := by
  simp

theorem hoc_beep (n length delayLength : Nat) (s : St) :
    heaterOnCount (beep n length delayLength s).trace = heaterOnCount s.trace := by
  simp

theorem hoc_ledPulse (s : St) :
    heaterOnCount (ledPulse s).trace = heaterOnCount s.trace := by
  simp

theorem hoc_loadSetup (s : St) :
    heaterOnCount (loadSetup s).trace = heaterOnCount s.trace := by
  simp [loadSetup, beepMessage]

theorem hoc_drainPour (s : St) :
    heaterOnCount (drainPour s).trace = heaterOnCount s.trace := by
  rw [drainPour_trace]
  simp

theorem hoc_isLoaded (env : Env) (s : St) :
    heaterOnCount (isLoaded env s).2.trace = heaterOnCount s.trace := by
  rw [isLoaded_trace]

theorem hoc_fillPoll (env : Env) (ls : Nat) :
    ∀ (fuel : Nat) (s s2 : St), fillPoll env ls fuel s = some s2 →
      heaterOnCount s2.trace = heaterOnCount s.trace := by
  intro fuel
  induction fuel with
  | zero => intro s s2 h; cases h
  | succ n ih =>
    intro s s2 h
    rw [fillPoll] at h
    rcases hl : isLoaded env s with ⟨b, s1⟩
    rw [hl] at h
    have htr : s1.trace = s.trace := by
      have := isLoaded_trace env s
      rw [hl] at this
      exact this
    cases b
    · dsimp only at h
      split at h
      · have := ih _ _ h
        rw [this]
        simp [delay, htr]
      · injection h with h2
        subst h2
        rw [htr]
    · injection h with h2
      subst h2
      rw [htr]

theorem hoc_doubleWait (lt ls : Nat) :
    ∀ (fuel : Nat) (s s2 : St), doubleWait lt ls fuel s = some s2 →
      heaterOnCount s2.trace = heaterOnCount s.trace := by
  intro fuel
  induction fuel with
  | zero => intro s s2 h; cases h
  | succ n ih =>
    intro s s2 h
    rw [doubleWait] at h
    split at h
    · have := ih _ _ h
      rw [this]
      simp
    · injection h with h2
      subst h2
      rfl

theorem hoc_agitateWait (lt ls : Nat) :
    ∀ (fuel : Nat) (s s2 : St), agitateWait lt ls fuel s = some s2 →
      heaterOnCount s2.trace = heaterOnCount s.trace := by
  intro fuel
  induction fuel with
  | zero => intro s s2 h; cases h
  | succ n ih =>
    intro s s2 h
    rw [agitateWait] at h
    split at h
    · have := ih _ _ h
      rw [this]
      simp
    · injection h with h2
      subst h2
      rfl

theorem hoc_topUpPoll (env : Env) (lt ls : Nat) :
    ∀ (fuel : Nat) (s s2 : St), topUpPoll env lt ls fuel s = some s2 →
      heaterOnCount s2.trace = heaterOnCount s.trace := by
  intro fuel
  induction fuel with
  | zero => intro s s2 h; cases h
  | succ n ih =>
    intro s s2 h
    rw [topUpPoll] at h
    rcases hl : isLoaded env s with ⟨b, s1⟩
    rw [hl] at h
    have htr : s1.trace = s.trace := by
      have := isLoaded_trace env s
      rw [hl] at this
      exact this
    cases b
    · dsimp only at h
      split at h
      · have := ih _ _ h
        rw [this]
        simp [delay, htr]
      · injection h with h2
        subst h2
        rw [htr]
    · injection h with h2
      subst h2
      rw [htr]

theorem hoc_loadFinish_ok (env : Env) (s s2 : St)
    (h : loadFinish env s = Except.ok s2) :
    heaterOnCount s2.trace = heaterOnCount s.trace := by
  rw [loadFinish] at h
  rcases hl : isLoaded env s with ⟨b, s1⟩
  rw [hl] at h
  have htr : s1.trace = s.trace := by
    have := isLoaded_trace env s
    rw [hl] at this
    exact this
  cases b
  · cases h
  · injection h with h2
    subst h2
    simp [delay, htr]

theorem hoc_loadFinish_error (env : Env) (s : St) (f : Fault)
    (h : loadFinish env s = Except.error f) :
    heaterOnCount f.st.trace = heaterOnCount s.trace := by
  rw [loadFinish] at h
  rcases hl : isLoaded env s with ⟨b, s1⟩
  rw [hl] at h
  have htr : s1.trace = s.trace := by
    have := isLoaded_trace env s
    rw [hl] at this
    exact this
  cases b
  · unfold crash at h
    injection h with h2
    subst h2
    rw [htr]
  · cases h

theorem hoc_washStep_ok (env : Env) (temperature : Int) (cycleStarts : Nat)
    (w w2 : WashSt) (h : washStep env temperature cycleStarts w = Except.ok w2) :
    heaterOnCount w2.st.trace = heaterOnCount w.st.trace := by
  rw [washStep] at h
  split at h
  · injection h with h2
    subst h2
    simp
  · dsimp only at h
    split at h
    · cases h
    · injection h with h2
      subst h2
      simp

theorem hoc_washLoop (env : Env) (washTime : Nat) (temperature : Int) (cycleStarts : Nat) :
    ∀ (fuel : Nat) (w : WashSt) (r : Except Fault St),
      washLoop env washTime temperature cycleStarts fuel w = some r →
      heaterOnCount (stOf r).trace = heaterOnCount w.st.trace := by
  intro fuel
  induction fuel with
  | zero => intro w r h; cases h
  | succ n ih =>
    intro w r h
    rw [washLoop] at h
    split at h
    · split at h
      · rename_i f heq
        injection h with h2
        subst h2
        have := washStep_error _ _ _ _ _ heq
        rw [stOf, this.2.2.1]
      · rename_i w2 heq
        rw [ih _ _ h, hoc_washStep_ok _ _ _ _ _ heq]
    · injection h with h2
      subst h2
      rfl

theorem hoc_load_ok (env : Env) (fuel : Nat) (s s2 : St) (g : LoadGhost)
    (h : load env fuel s = some (Except.ok (s2, g))) :
    heaterOnCount s2.trace = heaterOnCount s.trace := by
  rw [load] at h
  split at h
  · cases h
  · rename_i s3 hfp
    dsimp only at h
    split at h
    · cases h
    · split at h
      · cases h
      · rename_i s4 hdw
        split at h
        · cases h
        · rename_i s5 hag
          split at h
          · cases h
          · rename_i s6 htp
            split at h
            · cases h
            · rename_i s7 hlf
              injection h with h2
              injection h2 with h3
              have h4 : s7 = s2 := congrArg Prod.fst h3
              subst h4
              have e1 := hoc_fillPoll env _ fuel _ _ hfp
              have e2 : heaterOnCount (isLoaded env s3).2.trace = heaterOnCount s3.trace :=
                hoc_isLoaded env s3
              have e3 := hoc_doubleWait _ _ fuel _ _ hdw
              have e4 := hoc_agitateWait _ _ fuel _ _ hag
              have e5 := hoc_topUpPoll env _ _ fuel _ _ htp
              have e6 := hoc_loadFinish_ok env _ _ hlf
              simp only [digitalWrite_trace, heaterOnCount_cons_write] at e3 e4
              simp [e6, e5, e4, e3, e2, e1, hoc_loadSetup]

theorem hoc_load_error (env : Env) (fuel : Nat) (s : St) (f : Fault)
    (h : load env fuel s = some (Except.error f)) :
    heaterOnCount f.st.trace = heaterOnCount s.trace := by
  rw [load] at h
  split at h
  · cases h
  · rename_i s3 hfp
    dsimp only at h
    have e1 := hoc_fillPoll env _ fuel _ _ hfp
    have e2 : heaterOnCount (isLoaded env s3).2.trace = heaterOnCount s3.trace :=
      hoc_isLoaded env s3
    split at h
    · unfold crash at h
      injection h with h2
      injection h2 with h3
      subst h3
      simp [e2, e1, hoc_loadSetup]
    · split at h
      · cases h
      · rename_i s4 hdw
        split at h
        · cases h
        · rename_i s5 hag
          split at h
          · cases h
          · rename_i s6 htp
            split at h
            · rename_i f2 hlf
              injection h with h2
              injection h2 with h3
              subst h3
              have e3 := hoc_doubleWait _ _ fuel _ _ hdw
              have e4 := hoc_agitateWait _ _ fuel _ _ hag
              have e5 := hoc_topUpPoll env _ _ fuel _ _ htp
              have e6 := hoc_loadFinish_error env _ _ hlf
              simp only [digitalWrite_trace, heaterOnCount_cons_write] at e3 e4
              simp [e6, e5, e4, e3, e2, e1, hoc_loadSetup]
            · cases h

theorem hoc_drain_ok (env : Env) (s s2 : St) (h : drain env s = Except.ok s2) :
    heaterOnCount s2.trace = heaterOnCount s.trace := by
  rw [drain_eq] at h
  split at h
  · cases h
  · injection h with h2
    subst h2
    rw [hoc_isLoaded, hoc_drainPour]

theorem hoc_drain_error (env : Env) (s : St) (f : Fault)
    (h : drain env s = Except.error f) :
    heaterOnCount f.st.trace = heaterOnCount s.trace := by
  rw [drain_eq] at h
  split at h
  · injection h with h2
    subst h2
    dsimp only
    rw [hoc_isLoaded, hoc_drainPour]
  · cases h

/-- C8: the heater is energised at most once per `cycle()` — only by the
single temperature check before the wash loop — and the wash timer loop
itself never energises it, whatever the sampled temperatures do: any
completed run of `cycle` adds at most one `digitalWrite(HEATER_PIN, HIGH)`
to the trace, and any completed run of `washLoop` adds none. -/
theorem cycle_heater_on_at_most_once :
    (∀ (env : Env) (washTime : Nat) (soap : Bool) (temperature : Int)
        (fuel : Nat) (s : St) (r : Except Fault St),
      cycle env washTime soap temperature fuel s = some r →
      heaterOnCount (stOf r).trace ≤ heaterOnCount s.trace + 1) ∧
    (∀ (env : Env) (washTime : Nat) (temperature : Int) (cycleStarts : Nat)
        (fuel : Nat) (w : WashSt) (r : Except Fault St),
      washLoop env washTime temperature cycleStarts fuel w = some r →
      heaterOnCount (stOf r).trace = heaterOnCount w.st.trace) := by
  constructor
  · intro env washTime soap temperature fuel s r h
    rw [cycle] at h
    split at h
    · cases h
    · rename_i f heq
      injection h with h2
      subst h2
      dsimp only [stOf]
      rw [hoc_load_error _ _ _ _ heq]
      omega
    · rename_i s1 g heq
      dsimp only at h
      have e1 := hoc_load_ok _ _ _ _ _ heq
      set sSoap := if soap then
          delay 1000 (digitalWrite Pin.soap RELAY_MODULE_OFF
            (delay 200 (digitalWrite Pin.soap RELAY_MODULE_ON s1)))
        else s1 with hsoap
      have eS : heaterOnCount sSoap.trace = heaterOnCount s1.trace := by
        rw [hsoap]
        split <;> simp
      set sHeat := if temperature > 0 ∧ env.temp sSoap.time < temperature then
          delay 1000 (digitalWrite Pin.heater true sSoap)
        else sSoap with hheat
      have eH : heaterOnCount sHeat.trace ≤ heaterOnCount sSoap.trace + 1 := by
        rw [hheat]
        split <;> simp
      split at h
      · cases h
      · rename_i f heq2
        injection h with h2
        subst h2
        have := washLoop_error _ _ _ _ _ _ _ heq2
        have e2 := hoc_washLoop _ _ _ _ _ _ _ heq2
        dsimp only [stOf] at e2 ⊢
        omega
      · rename_i s2 heq2
        have e2 := hoc_washLoop _ _ _ _ _ _ _ heq2
        dsimp only at e2
        cases hd : drain env s2 with
        | error f =>
          rw [hd] at h
          injection h with h2
          subst h2
          have e3 := hoc_drain_error _ _ _ hd
          dsimp only [stOf] at e2 ⊢
          omega
        | ok s3 =>
          rw [hd] at h
          injection h with h2
          subst h2
          have e3 := hoc_drain_ok _ _ _ hd
          dsimp only [stOf] at e2 ⊢
          omega
  · intro env washTime temperature cycleStarts fuel w r h
    exact hoc_washLoop _ _ _ _ _ _ _ h

/-! ## C5 -/

theorem isLoaded_wet (env : Env) (hW : ∀ t, env.waterDisabled t = false) (s : St) :
    isLoaded env s = (true, { s with time := s.time + 10 }) :=
  isLoaded_of_wet env s (fun _ _ => hW _)

theorem fillPoll_wet (env : Env) (hW : ∀ t, env.waterDisabled t = false)
    (ls fuel : Nat) (hf : 1 ≤ fuel) (s : St) :
    fillPoll env ls fuel s = some { s with time := s.time + 10 } := by
  match fuel, hf with
  | m + 1, _ => rw [fillPoll, isLoaded_wet env hW]

theorem doubleWait_small (b t : Nat) (hb : 0 < b) (hb2 : b ≤ 1130)
    (fuel : Nat) (hf : 2 ≤ fuel) (s : St) (hs : s.time = t) :
    doubleWait b t fuel s = some (delay 1000 (beep 1 80 50 s)) := by
  match fuel, hf with
  | m + 2, _ =>
    rw [doubleWait, if_pos (by omega), doubleWait,
      if_neg (by simp only [delay_time, beep_time]; omega)]

theorem agitateWait_small (b t : Nat) (hb : 0 < b) (hb2 : 2 * b ≤ 3000)
    (fuel : Nat) (hf : 2 ≤ fuel) (s : St) (hs : s.time = t) :
    agitateWait b t fuel s = some (delay 800 (beep 2 50 50 s)) := by
  match fuel, hf with
  | m + 2, _ =>
    rw [agitateWait, if_pos (by omega), agitateWait,
      if_neg (by simp only [delay_time, beep_time]; omega)]

theorem topUpPoll_wet (env : Env) (hW : ∀ t, env.waterDisabled t = false)
    (b t fuel : Nat) (hf : 1 ≤ fuel) (s : St) :
    topUpPoll env b t fuel s = some { s with time := s.time + 10 } := by
  match fuel, hf with
  | m + 1, _ => rw [topUpPoll, isLoaded_wet env hW]

theorem loadFinish_wet (env : Env) (hW : ∀ t, env.waterDisabled t = false) (s : St) :
    loadFinish env s = Except.ok (delay 1000 (digitalWrite Pin.waterLoad RELAY_MODULE_OFF
      { s with time := s.time + 10 })) := by
  rw [loadFinish, isLoaded_wet env hW]

theorem load_wet (env : Env) (hW : ∀ t, env.waterDisabled t = false) (fuel : Nat)
    (hfuel : 2 ≤ fuel) (s : St) :
    ∃ (s2 : St) (g : LoadGhost),
      load env fuel s = some (Except.ok (s2, g)) ∧ s2.time = s.time + 6110 := by
  rw [load]
  set L := loadSetup s with hL
  set P := digitalWrite Pin.waterLoad RELAY_MODULE_ON L with hP
  have hPt : P.time = L.time := rfl
  rw [fillPoll_wet env hW L.time fuel (by omega) P]
  dsimp only
  rw [isLoaded_wet env hW]
  dsimp only
  rw [if_neg (by simp)]
  set S2 : St := ⟨P.time + 10 + 10, P.trace⟩ with hS2
  rw [doubleWait_small (P.time + 10 + 10 - L.time) (P.time + 10 + 10)
    (by omega) (by omega) fuel hfuel S2 rfl]
  dsimp only
  set S3 := delay 1000 (beep 1 80 50 S2) with hS3
  rw [agitateWait_small (P.time + 10 + 10 - L.time)
    (digitalWrite Pin.mainPump RELAY_MODULE_ON S3).time
    (by omega) (by omega) fuel hfuel (digitalWrite Pin.mainPump RELAY_MODULE_ON S3) rfl]
  dsimp only
  set S5 := delay 800 (beep 2 50 50 (digitalWrite Pin.mainPump RELAY_MODULE_ON S3)) with hS5
  rw [topUpPoll_wet env hW (P.time + 10 + 10 - L.time) S5.time fuel (by omega) S5]
  dsimp only
  rw [loadFinish_wet env hW]
  dsimp only
  refine ⟨_, _, rfl, ?_⟩
  simp only [hS5, hS3, hS2, hP, hL, delay_time, digitalWrite_time, beep_time, loadSetup_time]

theorem washLoop_cold_crash (env : Env) (washTime : Nat) (temperature : Int)
    (cycleStarts : Nat) (hT : ∀ t, env.temp t < temperature)
    (hwt : 2200 < washTime * 60 * 1000) :
    ∀ (n fuel : Nat) (w : WashSt),
      w.vo < temperature →
      w.st.time - w.washStarts < washTime * 60 * 1000 →
      HEATER_TIMEOUT + cycleStarts < w.st.time + 2200 * n →
      (n = 0 ∨ w.st.time + 2200 * (n - 1) ≤ HEATER_TIMEOUT + cycleStarts) →
      n < fuel →
      ∃ trc, washLoop env washTime temperature cycleStarts fuel w =
        some (Except.error ⟨FAILED_REACH_TEMP, ⟨w.st.time + 2200 * n, trc⟩⟩) := by
  intro n
  induction n with
  | zero =>
    intro fuel w hvo hguard hn _ hfuel
    match fuel, hfuel with
    | m + 1, _ =>
      refine ⟨w.st.trace, ?_⟩
      rw [washLoop, if_pos hguard, washStep, if_neg (lt_asymm hvo)]
      dsimp only
      rw [if_pos ⟨hT _, by omega⟩, crash]
      rfl
  | succ n ih =>
    intro fuel w hvo hguard hn hprev hfuel
    match fuel, hfuel with
    | m + 1, hfuel =>
      have hnoc : ¬ (env.temp w.st.time < temperature ∧
          w.st.time - cycleStarts > HEATER_TIMEOUT) := by
        rintro ⟨-, hx⟩
        rcases hprev with h0 | hle
        · cases h0
        · omega
      rw [washLoop, if_pos hguard, washStep, if_neg (lt_asymm hvo)]
      dsimp only
      rw [if_neg hnoc]
      dsimp only
      have htime : (ledPulse (beep 1 150 50 w.st)).time = w.st.time + 2200 := by
        simp only [ledPulse_time, beep_time]
        try omega
      obtain ⟨trc, htr⟩ := ih m ⟨env.temp w.st.time, w.st.time, ledPulse (beep 1 150 50 w.st)⟩
        (hT _)
        (by dsimp only; omega)
        (by dsimp only; omega)
        (by
          dsimp only
          cases n with
          | zero => exact Or.inl rfl
          | succ k => right; omega)
        (by omega)
      dsimp only at htr
      refine ⟨trc, ?_⟩
      have he : w.st.time + 2200 * (n + 1) = (ledPulse (beep 1 150 50 w.st)).time + 2200 * n := by
        omega
      rw [he]
      exact htr

/-- C5: with the level sensor always wet and the temperature sensor reading
strictly below the target 950 for the whole run, `cycle` raises
`FAILED_REACH_TEMP` (code 5), and only past the `HEATER_TIMEOUT` deadline:
(1) any code-5 crash of the wash loop happens strictly later than
`HEATER_TIMEOUT` after `cycleStarts` (never before the deadline), and
(2) the crash occurs exactly at `cycleStarts + 600600` (the first heartbeat
tick past the 600000ms deadline), where `cycleStarts = s.time + 7110`
(+1200 when soap is dosed). -/
theorem cycle_cold_crash (env : Env) (washTime : Nat) (soap : Bool)
    (fuel : Nat) (s : St)
    (hW : ∀ t, env.waterDisabled t = false)
    (hT : ∀ t, env.temp t < 950)
    (hwt : 2200 < washTime * 60 * 1000)
    (hfuel : 300 ≤ fuel) :
    (∀ (cycleStarts fuel2 : Nat) (w : WashSt) (f : Fault),
        washLoop env washTime 950 cycleStarts fuel2 w = some (Except.error f) →
        HEATER_TIMEOUT < f.st.time - cycleStarts) ∧
    errAt? (cycle env washTime soap 950 fuel s) =
      some (FAILED_REACH_TEMP, s.time + 7110 + (if soap then 1200 else 0) + 600600) ∧
    HEATER_TIMEOUT + (s.time + 7110 + (if soap then 1200 else 0)) <
      s.time + 7110 + (if soap then 1200 else 0) + 600600 := by
  have hH : HEATER_TIMEOUT = 600000 := rfl
  refine ⟨fun cs f2 w f h => (washLoop_error _ _ _ _ _ _ _ h).2.2, ?_, by
    cases soap <;> simp only [if_true, if_false, Bool.false_eq_true] <;> omega⟩
  obtain ⟨s2, g, hload, htime⟩ := load_wet env hW fuel (by omega) s
  rw [cycle, hload]
  dsimp only
  cases soap
  case false =>
    rw [if_neg (show ¬(false = true) by simp)]
    rw [if_pos (show (950:Int) > 0 ∧ env.temp s2.time < 950 from ⟨by norm_num, hT _⟩)]
    obtain ⟨trc, hwl⟩ := washLoop_cold_crash env washTime 950
      (delay 1000 (digitalWrite Pin.heater true s2)).time hT hwt 273 fuel
      ⟨env.temp s2.time, (delay 1000 (digitalWrite Pin.heater true s2)).time,
        delay 1000 (digitalWrite Pin.heater true s2)⟩
      (hT _)
      (by dsimp only; omega)
      (by dsimp only; omega)
      (by right; dsimp only; omega)
      (by omega)
    rw [hwl]
    dsimp only [errAt?]
    simp only [Option.some.injEq, Prod.mk.injEq, Bool.false_eq_true, if_false]
    refine ⟨trivial, ?_⟩
    simp only [delay_time, digitalWrite_time]
    omega
  case true =>
    rw [if_pos (show (true = true) from rfl)]
    set SB := delay 1000 (digitalWrite Pin.soap RELAY_MODULE_OFF
      (delay 200 (digitalWrite Pin.soap RELAY_MODULE_ON s2))) with hSB
    rw [if_pos (show (950:Int) > 0 ∧ env.temp SB.time < 950 from ⟨by norm_num, hT _⟩)]
    obtain ⟨trc, hwl⟩ := washLoop_cold_crash env washTime 950
      (delay 1000 (digitalWrite Pin.heater true SB)).time hT hwt 273 fuel
      ⟨env.temp SB.time, (delay 1000 (digitalWrite Pin.heater true SB)).time,
        delay 1000 (digitalWrite Pin.heater true SB)⟩
      (hT _)
      (by dsimp only; omega)
      (by dsimp only; omega)
      (by right; dsimp only; omega)
      (by omega)
    rw [hwl]
    dsimp only [errAt?]
    simp only [Option.some.injEq, Prod.mk.injEq, if_true]
    refine ⟨trivial, ?_⟩
    simp only [hSB, delay_time, digitalWrite_time]
    omega

theorem cycle_cold_crash_witness :
    errAt? (cycle ⟨fun _ => false, fun _ => 0⟩ 3 false 950 300 ⟨0, []⟩) =
      some (FAILED_REACH_TEMP, 0 + 7110 + (if false then 1200 else 0) + 600600) :=
  (cycle_cold_crash ⟨fun _ => false, fun _ => 0⟩ 3 false 300 ⟨0, []⟩
    (fun _ => rfl) (fun _ => by norm_num) (by norm_num) (by norm_num)).2.1

/-! ## C2 -/

theorem isLoaded_wet_from (env : Env) (A : Nat)
    (hwet : ∀ t, A ≤ t → env.waterDisabled t = false) (s : St) (hs : A ≤ s.time) :
    isLoaded env s = (true, { s with time := s.time + 10 }) :=
  isLoaded_of_wet env s (fun i _ => hwet _ (by omega))

theorem fillPoll_sharp (env : Env) (A ls : Nat)
    (hdry : ∀ t, t < A → env.waterDisabled t = true)
    (hwet : ∀ t, A ≤ t → env.waterDisabled t = false)
    (hA : A ≤ ls + LOAD_TIMEOUT) :
    ∀ (n fuel : Nat) (s : St),
      A ≤ s.time + 10 * n →
      (n = 0 ∨ s.time + 10 * (n - 1) < A) →
      n < fuel →
      fillPoll env ls fuel s = some ⟨s.time + 10 * n + 10, s.trace⟩ := by
  intro n
  induction n with
  | zero =>
    intro fuel s hn _ hfuel
    match fuel, hfuel with
    | m + 1, _ =>
      rw [fillPoll, isLoaded_wet_from env A hwet s (by omega)]
  | succ n ih =>
    intro fuel s hn hn2 hfuel
    match fuel, hfuel with
    | m + 1, hfuel =>
      have hsA : s.time < A := by
        rcases hn2 with h0 | hlt
        · cases h0
        · omega
      rw [fillPoll, isLoaded_of_dry_now env s (hdry _ hsA)]
      dsimp only
      rw [if_pos (by
        have := HEATER_TIMEOUT_eq
        have := LOAD_TIMEOUT_eq
        omega)]
      rw [ih m (delay 10 s) (by
          have hd : (delay 10 s).time = s.time + 10 := rfl
          omega)
        (by
          have hd : (delay 10 s).time = s.time + 10 := rfl
          cases n with
          | zero => exact Or.inl rfl
          | succ k => right; omega)
        (by omega)]
      refine congrArg some ?_
      have hd : (delay 10 s).time = s.time + 10 := rfl
      congr 1 <;> first | rfl | omega

theorem doubleWait_exact (b t : Nat) :
    ∀ (m fuel : Nat) (s : St),
      t ≤ s.time →
      b ≤ s.time - t + 1130 * m →
      (m = 0 ∨ s.time - t + 1130 * (m - 1) < b) →
      m < fuel →
      ∃ tr, doubleWait b t fuel s = some ⟨s.time + 1130 * m, tr⟩ := by
  intro m
  induction m with
  | zero =>
    intro fuel s hts hm _ hfuel
    match fuel, hfuel with
    | k + 1, _ =>
      refine ⟨s.trace, ?_⟩
      rw [doubleWait, if_neg (by omega)]
      rfl
  | succ m ih =>
    intro fuel s hts hm hm2 hfuel
    match fuel, hfuel with
    | k + 1, hfuel =>
      have hgt : s.time - t < b := by
        rcases hm2 with h0 | hlt
        · cases h0
        · omega
      rw [doubleWait, if_pos hgt]
      have hd : (delay 1000 (beep 1 80 50 s)).time = s.time + 1130 := by
        simp only [delay_time, beep_time]
        try omega
      obtain ⟨tr, htr⟩ := ih k (delay 1000 (beep 1 80 50 s))
        (by omega)
        (by omega)
        (by
          cases m with
          | zero => exact Or.inl rfl
          | succ j => right; omega)
        (by omega)
      refine ⟨tr, ?_⟩
      rw [htr]
      refine congrArg some ?_
      congr 1
      omega

theorem agitateWait_exact (b t : Nat) :
    ∀ (m fuel : Nat) (s : St),
      t ≤ s.time →
      2 * b ≤ 3 * (s.time - t) + 3000 * m →
      (m = 0 ∨ 3 * (s.time - t) + 3000 * (m - 1) < 2 * b) →
      m < fuel →
      ∃ tr, agitateWait b t fuel s = some ⟨s.time + 1000 * m, tr⟩ := by
  intro m
  induction m with
  | zero =>
    intro fuel s hts hm _ hfuel
    match fuel, hfuel with
    | k + 1, _ =>
      refine ⟨s.trace, ?_⟩
      rw [agitateWait, if_neg (by omega)]
      rfl
  | succ m ih =>
    intro fuel s hts hm hm2 hfuel
    match fuel, hfuel with
    | k + 1, hfuel =>
      have hgt : 3 * (s.time - t) < 2 * b := by
        rcases hm2 with h0 | hlt
        · cases h0
        · omega
      rw [agitateWait, if_pos hgt]
      have hd : (delay 800 (beep 2 50 50 s)).time = s.time + 1000 := by
        simp only [delay_time, beep_time]
        try omega
      obtain ⟨tr, htr⟩ := ih k (delay 800 (beep 2 50 50 s))
        (by omega)
        (by omega)
        (by
          cases m with
          | zero => exact Or.inl rfl
          | succ j => right; omega)
        (by omega)
      refine ⟨tr, ?_⟩
      rw [htr]
      refine congrArg some ?_
      congr 1
      omega

theorem topUpPoll_bound (env : Env) (b t : Nat) :
    ∀ (fuel : Nat) (s s2 : St),
      2 * (s.time - t) ≤ 3 * b + 1020 →
      topUpPoll env b t fuel s = some s2 →
      2 * (s2.time - t) ≤ 3 * b + 1040 := by
  intro fuel
  induction fuel with
  | zero => intro s s2 _ h; cases h
  | succ n ih =>
    intro s s2 hinv h
    rw [topUpPoll] at h
    rcases hl : isLoaded env s with ⟨bb, s1⟩
    rw [hl] at h
    have h1 : s1.time ≤ s.time + 10 := by
      have := isLoaded_time_le env s
      rw [hl] at this
      exact this
    cases bb
    · dsimp only at h
      split at h
      · rename_i hg
        have := ih _ _ (by
          have hd : (delay 400 (beep 1 50 50 s1)).time = s1.time + 500 := by
            simp only [delay_time, beep_time]
            try omega
          omega) h
        exact this
      · injection h with h2
        subst h2
        omega
    · injection h with h2
      subst h2
      omega

theorem topUpPoll_wet_from (env : Env) (A : Nat)
    (hwet : ∀ t, A ≤ t → env.waterDisabled t = false)
    (b t fuel : Nat) (hf : 1 ≤ fuel) (s : St) (hs : A ≤ s.time) :
    topUpPoll env b t fuel s = some { s with time := s.time + 10 } := by
  match fuel, hf with
  | m + 1, _ => rw [topUpPoll, isLoaded_wet_from env A hwet s hs]

theorem loadFinish_wet_from (env : Env) (A : Nat)
    (hwet : ∀ t, A ≤ t → env.waterDisabled t = false) (s : St) (hs : A ≤ s.time) :
    loadFinish env s = Except.ok (delay 1000 (digitalWrite Pin.waterLoad RELAY_MODULE_OFF
      { s with time := s.time + 10 })) := by
  rw [loadFinish, isLoaded_wet_from env A hwet s hs]

theorem load_sharp (env : Env) (T fuel : Nat) (s : St)
    (hdry : ∀ t, t < s.time + 2940 + T → env.waterDisabled t = true)
    (hwet : ∀ t, s.time + 2940 + T ≤ t → env.waterDisabled t = false)
    (hT : T ≤ 200000)
    (hfuel : 20002 ≤ fuel) :
    ∃ g, okGhost? (load env fuel s) = some g ∧
      g.loadTime = 10 * ((T + 9) / 10) + 20 ∧
      g.tFill = s.time + 2940 + g.loadTime ∧
      g.tDouble = g.tFill + 1130 * ((g.loadTime + 1129) / 1130) ∧
      g.tAgitate = g.tDouble + 1000 * ((2 * g.loadTime + 2999) / 3000) ∧
      g.tTopUp = g.tAgitate + 10 := by
  have hLtmo := LOAD_TIMEOUT_eq
  rw [load]
  set L := loadSetup s with hL
  set P := digitalWrite Pin.waterLoad RELAY_MODULE_ON L with hP
  have hPt : P.time = L.time := rfl
  have hLt : L.time = s.time + 2940 := loadSetup_time s
  set n1 := (T + 9) / 10 with hn1
  rw [fillPoll_sharp env (s.time + 2940 + T) L.time hdry hwet (by omega) n1 fuel P
    (by omega)
    (by
      rcases Nat.eq_zero_or_pos n1 with h0 | hpos
      · exact Or.inl h0
      · right; omega)
    (by omega)]
  dsimp only
  rw [isLoaded_wet_from env (s.time + 2940 + T) hwet ⟨P.time + 10 * n1 + 10, P.trace⟩
    (by (try dsimp only); omega)]
  dsimp only
  rw [if_neg (by simp)]
  set LT := P.time + 10 * n1 + 10 + 10 - L.time with hLT
  have hLTval : LT = 10 * n1 + 20 := by omega
  set m1 := (LT + 1129) / 1130 with hm1
  obtain ⟨tr1, hdw⟩ := doubleWait_exact LT (P.time + 10 * n1 + 10 + 10) m1 fuel
    ⟨P.time + 10 * n1 + 10 + 10, P.trace⟩
    (by (try dsimp only); omega)
    (by (try dsimp only); omega)
    (by
      rcases Nat.eq_zero_or_pos m1 with h0 | hpos
      · exact Or.inl h0
      · right; (try dsimp only); omega)
    (by omega)
  rw [hdw]
  dsimp only
  set m2 := (2 * LT + 2999) / 3000 with hm2
  obtain ⟨tr2, hag⟩ := agitateWait_exact LT
    (digitalWrite Pin.mainPump RELAY_MODULE_ON
      ⟨P.time + 10 * n1 + 10 + 10 + 1130 * m1, tr1⟩).time m2 fuel
    (digitalWrite Pin.mainPump RELAY_MODULE_ON
      ⟨P.time + 10 * n1 + 10 + 10 + 1130 * m1, tr1⟩)
    (le_refl _)
    (by (try dsimp only); omega)
    (by
      rcases Nat.eq_zero_or_pos m2 with h0 | hpos
      · exact Or.inl h0
      · right; (try dsimp only); omega)
    (by omega)
  rw [hag]
  dsimp only
  have hdwt : (digitalWrite Pin.mainPump RELAY_MODULE_ON
      ⟨P.time + 10 * n1 + 10 + 10 + 1130 * m1, tr1⟩).time =
      P.time + 10 * n1 + 10 + 10 + 1130 * m1 := rfl
  rw [topUpPoll_wet_from env (s.time + 2940 + T) hwet LT _ fuel (by omega)
    ⟨(digitalWrite Pin.mainPump RELAY_MODULE_ON
      ⟨P.time + 10 * n1 + 10 + 10 + 1130 * m1, tr1⟩).time + 1000 * m2, tr2⟩
    (by (try dsimp only); omega)]
  dsimp only
  rw [loadFinish_wet_from env (s.time + 2940 + T) hwet _
    (by (try dsimp only); omega)]
  dsimp only
  refine ⟨_, rfl, ?_, ?_, ?_, ?_, ?_⟩ <;> (try dsimp only) <;> omega

/-- C2 (amended): with a sharp level sensor first wet exactly `T` ms after
the valve is energised (the valve-on instant is `s.time + 2940`, right after
`loadSetup`), `load()` measures
`loadTime = 10 * ceil(T / 10) + 20` — `T` rounded up to the 10ms polling
grid *plus* a fixed 20ms from the two full debounce confirmations — so
`T + 20 ≤ loadTime ≤ T + 29`, up to three poll periods above `T` rather
than within one.  The later waits are exact fixed multiples of this single
measurement: the doubling wait runs `loadTime` rounded up to a whole 1130ms
beep period, the agitation-start wait runs `loadTime / 1.5` rounded up to a
whole 1000ms period (and `agitateWait` takes no `Env`, so `isFilled` is
never consulted there), and the top-up polling is bounded by the
`1.5 * loadTime` budget plus at most one 510ms iteration and one debounce
window. -/
theorem load_timing_extrapolation (env : Env) (T fuel : Nat) (s : St)
    (hdry : ∀ t, t < s.time + 2940 + T → env.waterDisabled t = true)
    (hwet : ∀ t, s.time + 2940 + T ≤ t → env.waterDisabled t = false)
    (hT : T ≤ 200000)
    (hfuel : 20002 ≤ fuel) :
    (∃ g, okGhost? (load env fuel s) = some g ∧
      g.loadTime = 10 * ((T + 9) / 10) + 20 ∧
      (T + 20 ≤ g.loadTime ∧ g.loadTime ≤ T + 29) ∧
      g.tFill = s.time + 2940 + g.loadTime ∧
      (g.loadTime ≤ g.tDouble - g.tFill ∧ g.tDouble - g.tFill < g.loadTime + 1130) ∧
      (2 * g.loadTime ≤ 3 * (g.tAgitate - g.tDouble) ∧
        3 * (g.tAgitate - g.tDouble) < 2 * g.loadTime + 3000) ∧
      g.tTopUp = g.tAgitate + 10 ∧
      2 * (g.tTopUp - g.tAgitate) ≤ 3 * g.loadTime + 1040) ∧
    (∀ (env2 : Env) (b t fuel2 : Nat) (s2 s3 : St),
      2 * (s2.time - t) ≤ 3 * b + 1020 →
      topUpPoll env2 b t fuel2 s2 = some s3 →
      2 * (s3.time - t) ≤ 3 * b + 1040) := by
  refine ⟨?_, fun env2 b t fuel2 s2 s3 hi hr => topUpPoll_bound env2 b t fuel2 s2 s3 hi hr⟩
  obtain ⟨g, hg, h1, h2, h3, h4, h5⟩ := load_sharp env T fuel s hdry hwet hT hfuel
  exact ⟨g, hg, h1, by omega, h2, by omega, by omega, h5, by omega⟩

/-- C2 counterexample to the claim as stated: with the sensor first wet at
`T = 95` ms after valve-on, the measured `loadTime` is 120 ms — off by 25 ms,
more than the 10 ms poll granularity (and more than two poll periods). -/
theorem load_time_beyond_poll_granularity :
    (okGhost? (load ⟨fun t => decide (t < 3035), fun _ => 0⟩ 30 ⟨0, []⟩)).map
        LoadGhost.loadTime = some 120 ∧
    ¬(95 ≤ 120 + 10 ∧ 120 ≤ 95 + 10) :=
  ⟨by decide, by decide⟩

theorem load_timing_extrapolation_witness :
    (∃ g, okGhost? (load ⟨fun t => decide (t < 2980), fun _ => 0⟩ 20002 ⟨0, []⟩) = some g ∧
      g.loadTime = 10 * ((40 + 9) / 10) + 20 ∧
      (40 + 20 ≤ g.loadTime ∧ g.loadTime ≤ 40 + 29) ∧
      g.tFill = (⟨0, []⟩ : St).time + 2940 + g.loadTime ∧
      (g.loadTime ≤ g.tDouble - g.tFill ∧ g.tDouble - g.tFill < g.loadTime + 1130) ∧
      (2 * g.loadTime ≤ 3 * (g.tAgitate - g.tDouble) ∧
        3 * (g.tAgitate - g.tDouble) < 2 * g.loadTime + 3000) ∧
      g.tTopUp = g.tAgitate + 10 ∧
      2 * (g.tTopUp - g.tAgitate) ≤ 3 * g.loadTime + 1040) :=
  (load_timing_extrapolation ⟨fun t => decide (t < 2980), fun _ => 0⟩ 40 20002 ⟨0, []⟩
    (fun t ht => decide_eq_true (by simpa using ht))
    (fun t ht => decide_eq_false (by omega))
    (by norm_num) (le_refl _)).1
